import Mathlib

/-!
A shallow embedding of the MPT-circuit constraint logic of this repository.

The source files build polynomial constraints over a prime field; every gate
is a list of expressions that a satisfying witness must make equal to zero.
We embed each gate as a function from the queried cell values to the value of
the constraint expression, over `ℚ` (like the circuit field, an integral
domain, so a product vanishes exactly when one factor does), and prove what
each constraint enforces.  Cell values queried by a gate at fixed rotations
are collected into one structure per gate family; the random field element
powers `r_table` are passed as a function `rt : ℕ → ℚ`.
-/

namespace Spec2Proof

/-! ## Row classifier (`leaf_key.rs` lines 124-130) -/

/-- Source expression `last_level = flag1 * flag2`. -/
def last_level (f1 f2 : ℚ) : ℚ := f1 * f2

/-- Source expression `is_long = flag1 * (1 - flag2)`. -/
def is_long (f1 f2 : ℚ) : ℚ := f1 * (1 - f2)

/-- Source expression `is_short = (1 - flag1) * flag2`. -/
def is_short (f1 f2 : ℚ) : ℚ := (1 - f1) * f2

/-- Source expression `one_nibble = (1 - flag1) * (1 - flag2)`. -/
def one_nibble (f1 f2 : ℚ) : ℚ := (1 - f1) * (1 - f2)

/-- Modelled from the spec: `get_bool_constraint` lives in `helpers.rs`, which
is not part of the provided sources.  The spec requires each flag to satisfy
booleanity `x * x = x`, gated by the gate selector `q`. -/
def bool_constraint (q x : ℚ) : ℚ := q * (x * x - x)

/-! ## Storage leaf key row (`leaf_key.rs`)

One `LEAF_KEY_S` / `LEAF_KEY_C` row together with the cells the gates of
`LeafKeyConfig::configure` query at fixed rotations (branch init row above,
first branch-child row above, account-leaf marker row). -/

structure LeafKeyRow where
  q_enable : ℚ
  flag1 : ℚ
  flag2 : ℚ
  s_rlp1 : ℚ
  s_rlp2 : ℚ
  s_bytes : ℕ → ℚ
  c_rlp1 : ℚ
  c_rlp2 : ℚ
  is_leaf_in_first_level : ℚ
  key_rlc_acc_start : ℚ
  key_mult_start : ℚ
  c16 : ℚ
  c1 : ℚ
  is_branch_placeholder : ℚ
  nibbles_count : ℚ
  key_rlc : ℚ

/-- `leaf_key.rs` lines 472-473: nibbles contributed by an `is_long` leaf,
computed from the second RLP byte `s_main.bytes[0]` and the branch flags. -/
def leaf_nibbles_long (w : LeafKeyRow) : ℚ :=
  ((w.s_bytes 0 - 128 - 1) * 2) * w.c1 + ((w.s_bytes 0 - 128) * 2 - 1) * w.c16

/-- `leaf_key.rs` lines 474-475: nibbles contributed by an `is_short` leaf,
computed from `s_main.rlp2` and the branch flags. -/
def leaf_nibbles_short (w : LeafKeyRow) : ℚ :=
  ((w.s_rlp2 - 128 - 1) * 2) * w.c1 + ((w.s_rlp2 - 128) * 2 - 1) * w.c16

/-- `leaf_key.rs` lines 476-480: per-case combination of the leaf nibble
count (`last_level` contributes the constant 0, `one_nibble` the constant 1). -/
def leaf_nibbles (w : LeafKeyRow) : ℚ :=
  leaf_nibbles_long w * is_long w.flag1 w.flag2
    + leaf_nibbles_short w * is_short w.flag1 w.flag2
    + 0 * last_level w.flag1 w.flag2
    + 1 * one_nibble w.flag1 w.flag2

/-- `leaf_key.rs` lines 487-495: constraint "Total number of storage address
nibbles is 64 (not first level, not branch placeholder)". -/
def nibbles_count_constraint (w : LeafKeyRow) : ℚ :=
  w.q_enable * (1 - w.is_branch_placeholder) * (1 - w.is_leaf_in_first_level)
    * (w.nibbles_count + leaf_nibbles w - 64)

/-- `leaf_key.rs` lines 592-596: in the first-level gate the flags are used
directly (`is_long = flag1`, `is_short = flag2`) and parity is always even. -/
def leaf_nibbles_first_level (w : LeafKeyRow) : ℚ :=
  (w.s_bytes 0 - 128 - 1) * 2 * w.flag1 + (w.s_rlp2 - 128 - 1) * 2 * w.flag2

/-- `leaf_key.rs` lines 603-610: constraint "Total number of account address
nibbles is 64 (first level)". -/
def nibbles_count_first_level_constraint (w : LeafKeyRow) : ℚ :=
  w.q_enable * w.is_leaf_in_first_level * (leaf_nibbles_first_level w - 64)

/-- `leaf_key.rs` lines 138-141: constraint "is_long: s_rlp1 = 248". -/
def is_long_rlp1_constraint (w : LeafKeyRow) : ℚ :=
  w.q_enable * is_long w.flag1 w.flag2 * (w.s_rlp1 - 248)

/-! ## Drifted leaf row (`leaf_key_in_added_branch.rs`)

The `LEAF_DRIFTED` row together with the cells queried by the gates of
`LeafKeyInAddedBranchChip::configure`: the branch-init row of the placeholder
branch, the row holding the key RLC of the level above, the `LEAF_KEY_S` and
`LEAF_KEY_C` rows, and the account-leaf marker row. -/

structure DriftedRow where
  q_enable : ℚ
  flag1 : ℚ
  flag2 : ℚ
  s_rlp1 : ℚ
  s_rlp2 : ℚ
  s_bytes : ℕ → ℚ
  c_rlp1 : ℚ
  key_rlc_cur : ℚ
  sel1 : ℚ
  sel2 : ℚ
  branch_rlc_mult : ℚ
  mult_diff : ℚ
  is_branch_s_placeholder : ℚ
  is_branch_c_placeholder : ℚ
  leaf_key_s_rlc : ℚ
  leaf_key_c_rlc : ℚ
  is_branch_in_first_storage_level : ℚ
  is_leaf_in_first_storage_level : ℚ
  is_one_nibble : ℚ
  drifted_pos : ℚ

/-- `leaf_key_in_added_branch.rs` lines 77-80: constraint "is_long"
(`s_rlp1` must be 248 on a long drifted leaf row). -/
def drifted_is_long_rlp1_constraint (w : DriftedRow) : ℚ :=
  w.q_enable * is_long w.flag1 w.flag2 * (w.s_rlp1 - 248)

/-- `leaf_key_in_added_branch.rs` lines 302-308: the multiplier at which the
drifted leaf continues the key RLC of the level above the placeholder. -/
def drifted_key_mult (w : DriftedRow) : ℚ :=
  w.branch_rlc_mult * w.mult_diff * (1 - w.is_branch_in_first_storage_level)
    + w.is_branch_in_first_storage_level * w.is_one_nibble
    + w.is_branch_in_first_storage_level * w.mult_diff * (1 - w.is_one_nibble)

/-- `leaf_key_in_added_branch.rs` lines 309-310: the multiplier applied to
`drifted_pos` (x16 under `sel1`, x1 under `sel2`). -/
def drifted_pos_mult (w : DriftedRow) : ℚ :=
  drifted_key_mult w * 16 * w.sel1 + drifted_key_mult w * w.sel2

/-- `leaf_key_in_added_branch.rs` line 315: key RLC of the level above the
placeholder with the drifted position nibble folded in. -/
def drifted_key_rlc_start (w : DriftedRow) : ℚ :=
  w.key_rlc_cur + w.drifted_pos * drifted_pos_mult w

/-- `leaf_key_in_added_branch.rs` lines 331-337: recomputed key RLC of a
short drifted leaf (key bytes begin at `s_main.bytes[0]`). -/
def drifted_key_rlc_short (rt : ℕ → ℚ) (w : DriftedRow) : ℚ :=
  drifted_key_rlc_start w
    + (w.s_bytes 0 - 48) * w.sel1 * drifted_key_mult w
    + ∑ ind ∈ Finset.Ico 1 32, w.s_bytes ind * drifted_key_mult w * rt (ind - 1)

/-- `leaf_key_in_added_branch.rs` lines 380-391: recomputed key RLC of a
long drifted leaf (key bytes begin at `s_main.bytes[1]`; the running
multiplier is multiplied by `r_table[0]` before every addition). -/
def drifted_key_rlc_long (rt : ℕ → ℚ) (w : DriftedRow) : ℚ :=
  drifted_key_rlc_start w
    + (w.s_bytes 1 - 48) * w.sel1 * drifted_key_mult w
    + ∑ ind ∈ Finset.Ico 2 32, w.s_bytes ind * (drifted_key_mult w * rt 0 ^ (ind - 1))
    + w.c_rlp1 * (drifted_key_mult w * rt 0 ^ 31)

/-- `leaf_key_in_added_branch.rs` lines 347-354: constraint
"Drifted leaf key S short". -/
def drifted_key_s_short_constraint (rt : ℕ → ℚ) (w : DriftedRow) : ℚ :=
  w.q_enable * w.is_branch_s_placeholder * is_short w.flag1 w.flag2
    * (1 - w.is_leaf_in_first_storage_level)
    * (w.leaf_key_s_rlc - drifted_key_rlc_short rt w)

/-- `leaf_key_in_added_branch.rs` lines 355-362: constraint
"Drifted leaf key C short". -/
def drifted_key_c_short_constraint (rt : ℕ → ℚ) (w : DriftedRow) : ℚ :=
  w.q_enable * w.is_branch_c_placeholder * is_short w.flag1 w.flag2
    * (1 - w.is_leaf_in_first_storage_level)
    * (w.leaf_key_c_rlc - drifted_key_rlc_short rt w)

/-- `leaf_key_in_added_branch.rs` lines 395-402: constraint
"Drifted leaf key S long". -/
def drifted_key_s_long_constraint (rt : ℕ → ℚ) (w : DriftedRow) : ℚ :=
  w.q_enable * w.is_branch_s_placeholder * is_long w.flag1 w.flag2
    * (1 - w.is_leaf_in_first_storage_level)
    * (w.leaf_key_s_rlc - drifted_key_rlc_long rt w)

/-- `leaf_key_in_added_branch.rs` lines 403-410: constraint
"Drifted leaf key C long". -/
def drifted_key_c_long_constraint (rt : ℕ → ℚ) (w : DriftedRow) : ℚ :=
  w.q_enable * w.is_branch_c_placeholder * is_long w.flag1 w.flag2
    * (1 - w.is_leaf_in_first_storage_level)
    * (w.leaf_key_c_rlc - drifted_key_rlc_long rt w)

/-- `leaf_key_in_added_branch.rs` lines 423-430: constraint
"Drifted leaf key S last level" (no nibbles in the drifted leaf). -/
def drifted_key_s_last_level_constraint (w : DriftedRow) : ℚ :=
  w.q_enable * w.is_branch_s_placeholder * last_level w.flag1 w.flag2
    * (1 - w.is_leaf_in_first_storage_level)
    * (w.leaf_key_s_rlc - drifted_key_rlc_start w)

/-- `leaf_key_in_added_branch.rs` lines 431-438: constraint
"Drifted leaf key C last level". -/
def drifted_key_c_last_level_constraint (w : DriftedRow) : ℚ :=
  w.q_enable * w.is_branch_c_placeholder * last_level w.flag1 w.flag2
    * (1 - w.is_leaf_in_first_storage_level)
    * (w.leaf_key_c_rlc - drifted_key_rlc_start w)

/-! ## Branch children (`zkevm-circuits/src/mpt_circuit/branch.rs`)

The 16 `BRANCH.IS_CHILD` rows of one branch, indexed 0..15, together with the
per-branch selector values the gates read.  Functions are indexed by the child
row number; only indices below 16 are meaningful. -/

structure BranchRows where
  node_index : ℕ → ℚ
  modified_index : ℕ → ℚ
  drifted_index : ℕ → ℚ
  is_modified : ℕ → ℚ
  is_drifted : ℕ → ℚ
  is_placeholder : ℚ

/-- `branch.rs` lines 242-245: the row after a branch init row is the first
branch child and its `node_index` is 0. -/
def node_index_first_constraint (b : BranchRows) : ℚ := b.node_index 0

/-- `branch.rs` lines 247-252: when the run of branch children ends, the
previous `node_index` must be 15. -/
def node_index_last_constraint (b : BranchRows) : ℚ := b.node_index 15 - 15

/-- `branch.rs` lines 221-225: gated on `node_index`, each child increments
`node_index` by 1 relative to the row above. -/
def node_index_incr_constraint (b : BranchRows) (i : ℕ) : ℚ :=
  b.node_index i * (b.node_index i - b.node_index (i - 1) - 1)

/-- `branch.rs` lines 204-206: gated on `node_index`, `modified_index` equals
its value in the row above (constant across the 16 children). -/
def modified_index_const_constraint (b : BranchRows) (i : ℕ) : ℚ :=
  b.node_index i * (b.modified_index i - b.modified_index (i - 1))

/-- `branch.rs` lines 204-208: gated on `node_index`, `drifted_index` equals
its value in the row above. -/
def drifted_index_const_constraint (b : BranchRows) (i : ℕ) : ℚ :=
  b.node_index i * (b.drifted_index i - b.drifted_index (i - 1))

/-- `branch.rs` lines 194-197: gated on `is_modified`,
`node_index = modified_index`. -/
def is_modified_index_constraint (b : BranchRows) (i : ℕ) : ℚ :=
  b.is_modified i * (b.node_index i - b.modified_index i)

/-- `branch.rs` lines 198-201: gated on `is_drifted`,
`node_index = drifted_index`. -/
def is_drifted_index_constraint (b : BranchRows) (i : ℕ) : ℚ :=
  b.is_drifted i * (b.node_index i - b.drifted_index i)

/-- `branch.rs` lines 259-261: at the last child, the sum of `is_modified`
over the 16 children must be 1. -/
def sum_is_modified_constraint (b : BranchRows) : ℚ :=
  (∑ i ∈ Finset.range 16, b.is_modified i) - 1

/-- `branch.rs` lines 263-267: at the last child of a placeholder branch, the
sum of `is_drifted` over the 16 children must be 1. -/
def sum_is_drifted_constraint (b : BranchRows) : ℚ :=
  b.is_placeholder * ((∑ i ∈ Finset.range 16, b.is_drifted i) - 1)

/-- All the `branch.rs` constraints listed above, for one branch. -/
def branch_constraints_hold (b : BranchRows) : Prop :=
  node_index_first_constraint b = 0 ∧
  node_index_last_constraint b = 0 ∧
  (∀ i, 1 ≤ i → i ≤ 15 → node_index_incr_constraint b i = 0) ∧
  (∀ i, 1 ≤ i → i ≤ 15 → modified_index_const_constraint b i = 0) ∧
  (∀ i, 1 ≤ i → i ≤ 15 → drifted_index_const_constraint b i = 0) ∧
  (∀ i, i < 16 → is_modified_index_constraint b i = 0) ∧
  (∀ i, i < 16 → is_drifted_index_constraint b i = 0) ∧
  sum_is_modified_constraint b = 0 ∧
  sum_is_drifted_constraint b = 0

instance (b : BranchRows) : Decidable (branch_constraints_hold b) := by
  unfold branch_constraints_hold
  exact inferInstance

/-! ## S/C equality outside the modified position (`branch.rs` lines 227-238)

The gate walks `s_main.rlp_bytes().iter().skip(1)` zipped with
`c_main.rlp_bytes().iter().skip(1)`, i.e. positions `rlp2, bytes[0..32]`
(the raw RLP bytes of the child; `rlp1` holds the running byte counter and is
skipped), and multiplies each difference by `node_index - modified_index`. -/

structure BranchChildPair where
  node_index : ℚ
  modified_index : ℚ
  s_rlp2 : ℚ
  c_rlp2 : ℚ
  s_bytes : ℕ → ℚ
  c_bytes : ℕ → ℚ

/-- Difference of the S and C byte at checked position `k` (position 0 is
`rlp2`, position `k+1` is `bytes[k]`); 33 positions are checked. -/
def sc_byte_diff (p : BranchChildPair) (k : ℕ) : ℚ :=
  match k with
  | 0 => p.s_rlp2 - p.c_rlp2
  | k + 1 => p.s_bytes k - p.c_bytes k

/-- `branch.rs` lines 231-238: constraint
`(node_index - modified_index) * (s_byte - c_byte)` at checked position `k`. -/
def sc_eq_constraint (p : BranchChildPair) (k : ℕ) : ℚ :=
  (p.node_index - p.modified_index) * sc_byte_diff p k

/-! ## Placeholder sibling non-nil count (`branch.rs` lines 313-330) -/

/-- Modelled from the spec: `RLP_HASH_VALUE` is defined in `param.rs`, which
is not part of the provided sources; the spec fixes the presence-indicator
byte of a 32-byte hashed child to 160. -/
def RLP_HASH_VALUE : ℚ := 160

/-- One side of a branch at its last child row: the placeholder selector read
from the branch init row and the 16 `rlp2` presence-indicator bytes. -/
structure PlaceholderBranchRows where
  is_placeholder : ℚ
  rlp2 : ℕ → ℚ

/-- `branch.rs` lines 322-329: gated on the placeholder selector, the sum of
`rlp2` over the 16 children must equal `RLP_HASH_VALUE * 2`. -/
def sum_rlp2_constraint (b : PlaceholderBranchRows) : ℚ :=
  b.is_placeholder * ((∑ i ∈ Finset.range 16, b.rlp2 i) - RLP_HASH_VALUE * 2)

/-! ## Branch byte-length bookkeeping (`branch.rs` lines 169-192) -/

/-- RLP-encoded byte length of one branch child, from its `rlp2` byte and its
first payload byte, as computed by `assign_branch_child`
(`branch.rs` lines 534-546): 33 for a hashed child (`rlp2 = 160`), 1 for a
nil child (`rlp2 = 0`, payload byte 128), `1 + (b0 - 192)` for a short
non-hashed child (`rlp2 = 0`, `b0 > 192`). -/
def branch_child_len (rlp2 b0 : ℕ) : ℕ :=
  if rlp2 = 160 then 33
  else if rlp2 = 0 ∧ b0 > 192 then 1 + (b0 - 192)
  else if rlp2 = 0 then 1
  else 0

/-- One side (S or C) of the 16 branch-child rows: the full RLP length of the
branch read from the init row (`BranchNodeInfo::len`), the running counter
column `rlp1`, and the two bytes determining each child's length. -/
structure BranchSideRows where
  branch_len : ℚ
  rlp1 : ℕ → ℚ
  rlp2_byte : ℕ → ℕ
  b0_byte : ℕ → ℕ

/-- The RLP length of child `i`, cast into the field. -/
def child_num_bytes (b : BranchSideRows) (i : ℕ) : ℚ :=
  (branch_child_len (b.rlp2_byte i) (b.b0_byte i) : ℚ)

/-- `branch.rs` lines 177-185: the counter in `rlp1` equals the previous
counter (the branch length when the previous row is the init row) minus the
RLP length of the current child. -/
def num_bytes_left_constraint (b : BranchSideRows) (i : ℕ) : ℚ :=
  b.rlp1 i - ((if i = 0 then b.branch_len else b.rlp1 (i - 1)) - child_num_bytes b i)

/-- `branch.rs` lines 186-191: at the last child the counter must be 1. -/
def last_child_rlp1_constraint (b : BranchSideRows) : ℚ := b.rlp1 15 - 1

/-! ## Branch init witness generation (`branch.rs` lines 340-394)

`assign_branch_init` reads the modified-node byte, the drifted-position byte
and the two placeholder flag bytes from the branch init witness row and fills
the proof-values state. -/

structure BranchInitPv where
  modified_node : ℕ
  drifted_pos : ℕ
  is_branch_s_placeholder : Bool
  is_branch_c_placeholder : Bool

/-- `branch.rs` lines 350-394, the dataflow into `pv.modified_node`,
`pv.drifted_pos` and the placeholder booleans: `drifted_pos` starts as the
`DRIFTED_POS` byte and is overwritten with `modified_node` when both
placeholder flag bytes are 0. -/
def assign_branch_init_pv (modified_node_byte drifted_pos_byte ph_s_byte ph_c_byte : ℕ) :
    BranchInitPv :=
  let modified_node := modified_node_byte
  let drifted_pos := drifted_pos_byte
  let ph_s := ph_s_byte = 1
  let ph_c := ph_c_byte = 1
  let drifted_pos := if ph_s_byte = 0 ∧ ph_c_byte = 0 then modified_node else drifted_pos
  { modified_node := modified_node, drifted_pos := drifted_pos,
    is_branch_s_placeholder := ph_s, is_branch_c_placeholder := ph_c }

/-! ## Concrete rows used to exercise the theorems -/

/-- A `LEAF_KEY` row with every cell zero. -/
def zero_leaf_key_row : LeafKeyRow where
  q_enable := 0
  flag1 := 0
  flag2 := 0
  s_rlp1 := 0
  s_rlp2 := 0
  s_bytes := fun _ => 0
  c_rlp1 := 0
  c_rlp2 := 0
  is_leaf_in_first_level := 0
  key_rlc_acc_start := 0
  key_mult_start := 0
  c16 := 0
  c1 := 0
  is_branch_placeholder := 0
  nibbles_count := 0
  key_rlc := 0

/-- A short (`flag1 = 0, flag2 = 1`) leaf-key row under a `c1` branch with
key length byte `s_rlp2 = 161` (32 key bytes, hence 64 nibbles) and no
nibbles consumed above. -/
def leaf_key_row_64 : LeafKeyRow :=
  { zero_leaf_key_row with q_enable := 1, flag2 := 1, s_rlp2 := 161, c1 := 1 }

/-- A short leaf-key row under a `c1` branch with key length byte
`s_rlp2 = 130`, contributing 2 nibbles. -/
def leaf_key_row_130 : LeafKeyRow :=
  { zero_leaf_key_row with
    q_enable := 1
    flag2 := 1
    s_rlp2 := 130
    c1 := 1
    nibbles_count := 62 }

/-- A long (`flag1 = 1, flag2 = 0`) leaf-key row whose first byte is 248. -/
def leaf_key_row_long : LeafKeyRow :=
  { zero_leaf_key_row with q_enable := 1, flag1 := 1, s_rlp1 := 248 }

/-- A `LEAF_DRIFTED` row with every cell zero. -/
def zero_drifted_row : DriftedRow where
  q_enable := 0
  flag1 := 0
  flag2 := 0
  s_rlp1 := 0
  s_rlp2 := 0
  s_bytes := fun _ => 0
  c_rlp1 := 0
  key_rlc_cur := 0
  sel1 := 0
  sel2 := 0
  branch_rlc_mult := 0
  mult_diff := 0
  is_branch_s_placeholder := 0
  is_branch_c_placeholder := 0
  leaf_key_s_rlc := 0
  leaf_key_c_rlc := 0
  is_branch_in_first_storage_level := 0
  is_leaf_in_first_storage_level := 0
  is_one_nibble := 0
  drifted_pos := 0

/-- A long drifted-leaf row whose first byte is 248. -/
def drifted_row_long : DriftedRow :=
  { zero_drifted_row with q_enable := 1, flag1 := 1, s_rlp1 := 248 }

/-- A short drifted-leaf row below an S-side placeholder branch, with every
key byte zero. -/
def drifted_row_short_s : DriftedRow :=
  { zero_drifted_row with q_enable := 1, flag2 := 1, is_branch_s_placeholder := 1 }

/-- A branch whose modified child is 3 and drifted child is 5, with
`node_index` running 0..15 and both placeholder sums satisfied. -/
def branch_rows_3_5 : BranchRows where
  node_index := fun i => (i : ℚ)
  modified_index := fun _ => 3
  drifted_index := fun _ => 5
  is_modified := fun i => if i = 3 then 1 else 0
  is_drifted := fun i => if i = 5 then 1 else 0
  is_placeholder := 1

/-- A branch-child row pair at the modified position. -/
def branch_child_pair_mod : BranchChildPair where
  node_index := 7
  modified_index := 7
  s_rlp2 := 160
  c_rlp2 := 0
  s_bytes := fun _ => 1
  c_bytes := fun _ => 0

/-- A placeholder branch side whose children 2 and 7 are hashed and the rest
nil. -/
def placeholder_rows_2_7 : PlaceholderBranchRows where
  is_placeholder := 1
  rlp2 := fun i => if i = 2 ∨ i = 7 then 160 else 0

/-- A branch side of 16 nil children: each child occupies 1 byte, the branch
RLP length is 17 (one byte is reserved for the value node). -/
def branch_side_nil : BranchSideRows where
  branch_len := 17
  rlp1 := fun i => 16 - (i : ℚ)
  rlp2_byte := fun _ => 0
  b0_byte := fun _ => 128

/-! ## Theorems -/

/-- Claim C1: for a storage leaf-key row that is not in the first trie level
and whose branch above is not a placeholder, the gate of
`leaf_key.rs` lines 487-495 forces `nibbles_count` (read from the branch init
row above) plus the leaf's contributed nibbles to equal 64; for a leaf in the
first level the gate of lines 603-610 forces the leaf's contributed nibbles
alone to equal 64. -/
theorem leaf_nibbles_total_64 (w : LeafKeyRow) (hq : w.q_enable = 1) :
    (w.is_branch_placeholder = 0 → w.is_leaf_in_first_level = 0 →
      nibbles_count_constraint w = 0 →
      w.nibbles_count + leaf_nibbles w = 64) ∧
    (w.is_leaf_in_first_level = 1 →
      nibbles_count_first_level_constraint w = 0 →
      leaf_nibbles_first_level w = 64) := by
  constructor
  · intro hph hfl h
    unfold nibbles_count_constraint at h
    rw [hq, hph, hfl] at h
    norm_num at h
    linarith
  · intro hfl h
    unfold nibbles_count_first_level_constraint at h
    rw [hq, hfl] at h
    norm_num at h
    linarith

/-- Claim C1, witness: a short leaf with key-length byte 161 under a `c1`
branch contributes 64 nibbles; the constraint evaluates to zero and the
64-nibble total holds. -/
theorem leaf_nibbles_total_64_witness :
    leaf_key_row_64.q_enable = 1 ∧
    leaf_key_row_64.is_branch_placeholder = 0 ∧
    leaf_key_row_64.is_leaf_in_first_level = 0 ∧
    nibbles_count_constraint leaf_key_row_64 = 0 ∧
    leaf_key_row_64.nibbles_count + leaf_nibbles leaf_key_row_64 = 64 :=
  ⟨rfl, rfl, rfl,
    by norm_num [nibbles_count_constraint, leaf_nibbles, leaf_nibbles_short,
      leaf_nibbles_long, is_long, is_short, last_level, one_nibble,
      leaf_key_row_64, zero_leaf_key_row],
    (leaf_nibbles_total_64 leaf_key_row_64 rfl).1 rfl rfl
      (by norm_num [nibbles_count_constraint, leaf_nibbles, leaf_nibbles_short,
        leaf_nibbles_long, is_long, is_short, last_level, one_nibble,
        leaf_key_row_64, zero_leaf_key_row])⟩

/-- Claim C2, counterexample: the claim predicts that under `c1` a short leaf
with key-length byte `s_rlp2 = 130` contributes `2 * (130 - 128) - 1 = 3`
nibbles, but the expression of `leaf_key.rs` lines 472-480 yields
`2 * (130 - 128) - 2 = 2` (the claim swaps the `c1` and `c16` formulas). -/
theorem leaf_nibbles_c1_c16_counterexample :
    leaf_nibbles leaf_key_row_130 = 2 ∧
    leaf_nibbles leaf_key_row_130 ≠ 2 * (leaf_key_row_130.s_rlp2 - 128) - 1 := by
  constructor <;>
    norm_num [leaf_nibbles, leaf_nibbles_short, leaf_nibbles_long,
      is_long, is_short, last_level, one_nibble, leaf_key_row_130, zero_leaf_key_row]

/-- Claim C2, amended: the leaf contributes `2 * (byte0 - 128) - 2` nibbles
when the branch-supplied `c1` flag is set and `2 * (byte0 - 128) - 1` when
`c16` is set, where `byte0` is `s_main.rlp2` in the `is_short` case and
`s_main.bytes[0]` in the `is_long` case; moreover under the case flags the
combined expression reduces to the matching per-case formula. -/
theorem leaf_nibbles_formula (w : LeafKeyRow) :
    (w.c1 = 1 → w.c16 = 0 →
      leaf_nibbles_short w = 2 * (w.s_rlp2 - 128) - 2 ∧
      leaf_nibbles_long w = 2 * (w.s_bytes 0 - 128) - 2) ∧
    (w.c16 = 1 → w.c1 = 0 →
      leaf_nibbles_short w = 2 * (w.s_rlp2 - 128) - 1 ∧
      leaf_nibbles_long w = 2 * (w.s_bytes 0 - 128) - 1) ∧
    (w.flag1 = 0 → w.flag2 = 1 → leaf_nibbles w = leaf_nibbles_short w) ∧
    (w.flag1 = 1 → w.flag2 = 0 → leaf_nibbles w = leaf_nibbles_long w) := by
  refine ⟨?_, ?_, ?_, ?_⟩
  · intro h1 h16
    constructor <;> simp only [leaf_nibbles_short, leaf_nibbles_long, h1, h16] <;> ring
  · intro h16 h1
    constructor <;> simp only [leaf_nibbles_short, leaf_nibbles_long, h1, h16] <;> ring
  · intro hf1 hf2
    simp only [leaf_nibbles, is_long, is_short, last_level, one_nibble, hf1, hf2]
    ring
  · intro hf1 hf2
    simp only [leaf_nibbles, is_long, is_short, last_level, one_nibble, hf1, hf2]
    ring

/-- Claim C2, witness for the amended statement: the row with `s_rlp2 = 130`
under `c1` contributes `2 * (130 - 128) - 2 = 2` nibbles. -/
theorem leaf_nibbles_formula_witness :
    leaf_key_row_130.c1 = 1 ∧ leaf_key_row_130.c16 = 0 ∧
    leaf_nibbles_short leaf_key_row_130 = 2 * (leaf_key_row_130.s_rlp2 - 128) - 2 :=
  ⟨rfl, rfl, ((leaf_nibbles_formula leaf_key_row_130).1 rfl rfl).1⟩

/-- Claim C4: the two flags select exactly one of the four structural cases
(`flag1 = 1, flag2 = 0` gives `is_long`; `0,1` gives `is_short`; `1,1` gives
`last_level`; `0,0` gives `one_nibble`), the four case expressions always sum
to 1, and the booleanity constraint vanishes exactly on boolean values. -/
theorem flags_classify_cases (f1 f2 : ℚ) :
    ((f1 = 1 ∧ f2 = 0) → is_long f1 f2 = 1 ∧ is_short f1 f2 = 0 ∧
      last_level f1 f2 = 0 ∧ one_nibble f1 f2 = 0) ∧
    ((f1 = 0 ∧ f2 = 1) → is_short f1 f2 = 1 ∧ is_long f1 f2 = 0 ∧
      last_level f1 f2 = 0 ∧ one_nibble f1 f2 = 0) ∧
    ((f1 = 1 ∧ f2 = 1) → last_level f1 f2 = 1 ∧ is_long f1 f2 = 0 ∧
      is_short f1 f2 = 0 ∧ one_nibble f1 f2 = 0) ∧
    ((f1 = 0 ∧ f2 = 0) → one_nibble f1 f2 = 1 ∧ is_long f1 f2 = 0 ∧
      is_short f1 f2 = 0 ∧ last_level f1 f2 = 0) ∧
    (is_long f1 f2 + is_short f1 f2 + last_level f1 f2 + one_nibble f1 f2 = 1) ∧
    (bool_constraint 1 f1 = 0 ↔ f1 = 0 ∨ f1 = 1) := by
  refine ⟨?_, ?_, ?_, ?_, ?_, ?_⟩
  · rintro ⟨h1, h2⟩
    simp [is_long, is_short, last_level, one_nibble, h1, h2]
  · rintro ⟨h1, h2⟩
    simp [is_long, is_short, last_level, one_nibble, h1, h2]
  · rintro ⟨h1, h2⟩
    simp [is_long, is_short, last_level, one_nibble, h1, h2]
  · rintro ⟨h1, h2⟩
    simp [is_long, is_short, last_level, one_nibble, h1, h2]
  · unfold is_long is_short last_level one_nibble
    ring
  · unfold bool_constraint
    constructor
    · intro h
      have h2 : f1 * (f1 - 1) = 0 := by linarith [h, sq_nonneg f1]
      rcases mul_eq_zero.mp h2 with h3 | h3
      · exact Or.inl h3
      · exact Or.inr (by linarith)
    · rintro (h | h) <;> rw [h] <;> norm_num

/-- Claim C4, witness: at `flag1 = 1, flag2 = 0` the classifier activates
exactly `is_long`, and 1 satisfies booleanity. -/
theorem flags_classify_cases_witness :
    ((1 : ℚ) = 1 ∧ (0 : ℚ) = 0) ∧
    (is_long 1 0 = 1 ∧ is_short 1 0 = 0 ∧ last_level 1 0 = 0 ∧ one_nibble 1 0 = 0) ∧
    bool_constraint 1 1 = 0 :=
  ⟨⟨rfl, rfl⟩, (flags_classify_cases 1 0).1 ⟨rfl, rfl⟩,
    (flags_classify_cases 1 0).2.2.2.2.2.mpr (Or.inr rfl)⟩

/-- Claim C9: on an `is_long` leaf-key row the gate of `leaf_key.rs`
lines 138-141 vanishes exactly when `s_rlp1 = 248`, and likewise for the
drifted-leaf gate of `leaf_key_in_added_branch.rs` lines 77-80; a first byte
of 247 or 249 makes the constraint non-zero. -/
theorem is_long_rlp1_is_248 (w : LeafKeyRow) (v : DriftedRow)
    (hwq : w.q_enable = 1) (hw1 : w.flag1 = 1) (hw2 : w.flag2 = 0)
    (hvq : v.q_enable = 1) (hv1 : v.flag1 = 1) (hv2 : v.flag2 = 0) :
    (is_long_rlp1_constraint w = 0 ↔ w.s_rlp1 = 248) ∧
    (w.s_rlp1 = 247 ∨ w.s_rlp1 = 249 → is_long_rlp1_constraint w ≠ 0) ∧
    (drifted_is_long_rlp1_constraint v = 0 ↔ v.s_rlp1 = 248) ∧
    (v.s_rlp1 = 247 ∨ v.s_rlp1 = 249 → drifted_is_long_rlp1_constraint v ≠ 0) := by
  have hw : is_long_rlp1_constraint w = 0 ↔ w.s_rlp1 = 248 := by
    unfold is_long_rlp1_constraint is_long
    rw [hwq, hw1, hw2]
    norm_num
    exact sub_eq_zero
  have hv : drifted_is_long_rlp1_constraint v = 0 ↔ v.s_rlp1 = 248 := by
    unfold drifted_is_long_rlp1_constraint is_long
    rw [hvq, hv1, hv2]
    norm_num
    exact sub_eq_zero
  refine ⟨hw, ?_, hv, ?_⟩
  · rintro (h | h) hc
    · rw [hw.mp hc] at h; norm_num at h
    · rw [hw.mp hc] at h; norm_num at h
  · rintro (h | h) hc
    · rw [hv.mp hc] at h; norm_num at h
    · rw [hv.mp hc] at h; norm_num at h

/-- Claim C9, witness: rows with first byte 248 satisfy both gates. -/
theorem is_long_rlp1_is_248_witness :
    leaf_key_row_long.q_enable = 1 ∧ drifted_row_long.q_enable = 1 ∧
    is_long_rlp1_constraint leaf_key_row_long = 0 ∧
    drifted_is_long_rlp1_constraint drifted_row_long = 0 :=
  ⟨rfl, rfl,
    (is_long_rlp1_is_248 leaf_key_row_long drifted_row_long
      rfl rfl rfl rfl rfl rfl).1.mpr rfl,
    (is_long_rlp1_is_248 leaf_key_row_long drifted_row_long
      rfl rfl rfl rfl rfl rfl).2.2.1.mpr rfl⟩

/-- Claim C10: in `assign_branch_init`, when both placeholder flag bytes are
zero the assigned drifted position equals the modified position. -/
theorem drifted_pos_defaults_to_modified (m d s c : ℕ) (hs : s = 0) (hc : c = 0) :
    (assign_branch_init_pv m d s c).drifted_pos =
      (assign_branch_init_pv m d s c).modified_node := by
  subst hs
  subst hc
  simp [assign_branch_init_pv]

/-- Claim C10, witness: with modified node 5 and drifted-position byte 9,
no placeholder makes the assigned drifted position 5. -/
theorem drifted_pos_defaults_to_modified_witness :
    (0 : ℕ) = 0 ∧
    (assign_branch_init_pv 5 9 0 0).drifted_pos =
      (assign_branch_init_pv 5 9 0 0).modified_node :=
  ⟨rfl, drifted_pos_defaults_to_modified 5 9 0 0 rfl rfl⟩

/-- Claim C3: on a drifted-leaf row below a placeholder branch (the leaf not
in the first storage level), the gates of `leaf_key_in_added_branch.rs`
lines 347-410 and 423-438 force the key RLC recomputed from the level above
the placeholder - `drifted_pos` folded in at the `sel1`/`sel2` multiplier
plus the drifted leaf's remaining key bytes - to equal the key RLC stored at
the `LEAF_KEY_S` (S placeholder) resp. `LEAF_KEY_C` (C placeholder) row, in
each of the `is_short`, `is_long` and `last_level` cases. -/
theorem drifted_leaf_key_rlc_continuity (rt : ℕ → ℚ) (w : DriftedRow)
    (hq : w.q_enable = 1) (hfl : w.is_leaf_in_first_storage_level = 0) :
    (w.is_branch_s_placeholder = 1 → w.flag1 = 0 → w.flag2 = 1 →
      drifted_key_s_short_constraint rt w = 0 →
      w.leaf_key_s_rlc = drifted_key_rlc_short rt w) ∧
    (w.is_branch_c_placeholder = 1 → w.flag1 = 0 → w.flag2 = 1 →
      drifted_key_c_short_constraint rt w = 0 →
      w.leaf_key_c_rlc = drifted_key_rlc_short rt w) ∧
    (w.is_branch_s_placeholder = 1 → w.flag1 = 1 → w.flag2 = 0 →
      drifted_key_s_long_constraint rt w = 0 →
      w.leaf_key_s_rlc = drifted_key_rlc_long rt w) ∧
    (w.is_branch_c_placeholder = 1 → w.flag1 = 1 → w.flag2 = 0 →
      drifted_key_c_long_constraint rt w = 0 →
      w.leaf_key_c_rlc = drifted_key_rlc_long rt w) ∧
    (w.is_branch_s_placeholder = 1 → w.flag1 = 1 → w.flag2 = 1 →
      drifted_key_s_last_level_constraint w = 0 →
      w.leaf_key_s_rlc = drifted_key_rlc_start w) ∧
    (w.is_branch_c_placeholder = 1 → w.flag1 = 1 → w.flag2 = 1 →
      drifted_key_c_last_level_constraint w = 0 →
      w.leaf_key_c_rlc = drifted_key_rlc_start w) := by
  refine ⟨?_, ?_, ?_, ?_, ?_, ?_⟩ <;> intro hph h1 h2 h
  · unfold drifted_key_s_short_constraint is_short at h
    rw [hq, hph, h1, h2, hfl] at h
    norm_num at h
    linarith
  · unfold drifted_key_c_short_constraint is_short at h
    rw [hq, hph, h1, h2, hfl] at h
    norm_num at h
    linarith
  · unfold drifted_key_s_long_constraint is_long at h
    rw [hq, hph, h1, h2, hfl] at h
    norm_num at h
    linarith
  · unfold drifted_key_c_long_constraint is_long at h
    rw [hq, hph, h1, h2, hfl] at h
    norm_num at h
    linarith
  · unfold drifted_key_s_last_level_constraint last_level at h
    rw [hq, hph, h1, h2, hfl] at h
    norm_num at h
    linarith
  · unfold drifted_key_c_last_level_constraint last_level at h
    rw [hq, hph, h1, h2, hfl] at h
    norm_num at h
    linarith

/-- Claim C3, witness: a short drifted leaf below an S-side placeholder with
all key cells zero satisfies the gate, and its stored key RLC equals the
recomputed one. -/
theorem drifted_leaf_key_rlc_continuity_witness :
    drifted_row_short_s.q_enable = 1 ∧
    drifted_row_short_s.is_leaf_in_first_storage_level = 0 ∧
    drifted_row_short_s.is_branch_s_placeholder = 1 ∧
    drifted_key_s_short_constraint (fun _ => 0) drifted_row_short_s = 0 ∧
    drifted_row_short_s.leaf_key_s_rlc =
      drifted_key_rlc_short (fun _ => 0) drifted_row_short_s :=
  ⟨rfl, rfl, rfl,
    by norm_num [drifted_key_s_short_constraint, drifted_key_rlc_short,
      drifted_key_rlc_start, drifted_pos_mult, drifted_key_mult,
      is_short, drifted_row_short_s, zero_drifted_row],
    (drifted_leaf_key_rlc_continuity (fun _ => 0) drifted_row_short_s rfl rfl).1
      rfl rfl rfl
      (by norm_num [drifted_key_s_short_constraint, drifted_key_rlc_short,
        drifted_key_rlc_start, drifted_pos_mult, drifted_key_mult,
        is_short, drifted_row_short_s, zero_drifted_row])⟩

/-- From the three `node_index` constraints, the child rows are numbered
0..15: `node_index 0 = 0`, `node_index 15 = 15`, and every intermediate row
either resets to zero (which the endpoint pins down) or increments. -/
lemma branch_node_index_eq (b : BranchRows)
    (h15 : node_index_last_constraint b = 0)
    (hinc : ∀ i, 1 ≤ i → i ≤ 15 → node_index_incr_constraint b i = 0) :
    ∀ i, i ≤ 15 → b.node_index i = (i : ℚ) := by
  have key : ∀ j, j ≤ 15 → b.node_index (15 - j) = ((15 - j : ℕ) : ℚ) := by
    intro j
    induction j with
    | zero =>
      intro _
      unfold node_index_last_constraint at h15
      have h := sub_eq_zero.mp h15
      simpa using h
    | succ k ih =>
      intro hk
      have hik := ih (by omega)
      have hi1 : 1 ≤ 15 - k := by omega
      have hc := hinc (15 - k) hi1 (by omega)
      unfold node_index_incr_constraint at hc
      have hne : b.node_index (15 - k) ≠ 0 := by
        rw [hik]
        exact Nat.cast_ne_zero.mpr (by omega)
      rcases mul_eq_zero.mp hc with h | h
      · exact absurd h hne
      · have hprev : b.node_index (15 - k - 1) = b.node_index (15 - k) - 1 := by
          linarith [h]
        have hcast : ((15 - k - 1 : ℕ) : ℚ) = ((15 - k : ℕ) : ℚ) - 1 := by
          rw [Nat.cast_sub hi1]
          norm_num
        have hidx : 15 - (k + 1) = 15 - k - 1 := by omega
        rw [hidx, hprev, hik, hcast]
  intro i hi
  have h := key (15 - i) (by omega)
  rw [show 15 - (15 - i) = i by omega] at h
  exact h

/-- A column gated on `node_index` being equal to its value in the previous
row is constant across the 16 children. -/
lemma branch_gated_col_const (b : BranchRows) (g : ℕ → ℚ)
    (hnode : ∀ i, i ≤ 15 → b.node_index i = (i : ℚ))
    (hc : ∀ i, 1 ≤ i → i ≤ 15 → b.node_index i * (g i - g (i - 1)) = 0) :
    ∀ i, i ≤ 15 → g i = g 0 := by
  intro i
  induction i with
  | zero => intro _; rfl
  | succ k ih =>
    intro hk
    have h := hc (k + 1) (by omega) hk
    rw [hnode (k + 1) hk] at h
    rcases mul_eq_zero.mp h with h | h
    · exact absurd h (Nat.cast_ne_zero.mpr (by omega))
    · have hstep : g (k + 1) = g k := by simpa using sub_eq_zero.mp h
      rw [hstep]
      exact ih (by omega)

/-- When each `f i` is killed off the target index by
`f i * (i - M) = 0` and the 16 values sum to 1, exactly one `f m` is 1 (the
one whose index casts to `M`) and the rest vanish. -/
lemma exactly_one_unit (f : ℕ → ℚ) (M : ℚ)
    (hzero : ∀ i, i < 16 → f i * ((i : ℚ) - M) = 0)
    (hsum : (∑ i ∈ Finset.range 16, f i) = 1) :
    ∃ m : ℕ, m < 16 ∧ (m : ℚ) = M ∧ f m = 1 ∧ ∀ j, j < 16 → j ≠ m → f j = 0 := by
  by_cases hex : ∃ m : ℕ, m < 16 ∧ (m : ℚ) = M
  · obtain ⟨m, hm16, hmM⟩ := hex
    have hoff : ∀ j, j < 16 → j ≠ m → f j = 0 := by
      intro j hj hne
      rcases mul_eq_zero.mp (hzero j hj) with h | h
      · exact h
      · exfalso
        have hjM : (j : ℚ) = M := sub_eq_zero.mp h
        rw [← hmM] at hjM
        exact hne (Nat.cast_injective hjM)
    have hfm : f m = 1 := by
      rw [← hsum]
      symm
      apply Finset.sum_eq_single_of_mem m (Finset.mem_range.mpr hm16)
      intro j hj hne
      exact hoff j (Finset.mem_range.mp hj) hne
    exact ⟨m, hm16, hmM, hfm, hoff⟩
  · exfalso
    push_neg at hex
    have hall : (∑ i ∈ Finset.range 16, f i) = 0 := by
      apply Finset.sum_eq_zero
      intro i hi
      have hi16 := Finset.mem_range.mp hi
      rcases mul_eq_zero.mp (hzero i hi16) with h | h
      · exact h
      · exact absurd (sub_eq_zero.mp h) (hex i hi16)
    rw [hall] at hsum
    norm_num at hsum

/-- Claim C5: when the `branch.rs` constraints hold for the 16 children,
`is_modified` is 1 at exactly one child - the one whose `node_index` equals
`modified_index` - and 0 elsewhere; when the branch is a placeholder,
`is_drifted` is likewise 1 exactly at the child whose `node_index` equals
`drifted_index`. -/
theorem branch_exactly_one_modified_drifted (b : BranchRows)
    (h : branch_constraints_hold b) :
    (∃ m, m < 16 ∧ b.is_modified m = 1 ∧ b.node_index m = b.modified_index m ∧
      ∀ j, j < 16 → j ≠ m → b.is_modified j = 0) ∧
    (b.is_placeholder = 1 →
      ∃ d, d < 16 ∧ b.is_drifted d = 1 ∧ b.node_index d = b.drifted_index d ∧
        ∀ j, j < 16 → j ≠ d → b.is_drifted j = 0) := by
  obtain ⟨h0, h15, hinc, hmodc, hdriftc, hmodi, hdrifti, hsumm, hsumd⟩ := h
  have hnode := branch_node_index_eq b h15 hinc
  have hmconst := branch_gated_col_const b b.modified_index hnode
    fun i h1 h2 => hmodc i h1 h2
  have hdconst := branch_gated_col_const b b.drifted_index hnode
    fun i h1 h2 => hdriftc i h1 h2
  constructor
  · have hz : ∀ i, i < 16 → b.is_modified i * ((i : ℚ) - b.modified_index 0) = 0 := by
      intro i hi
      have h := hmodi i hi
      unfold is_modified_index_constraint at h
      rw [hnode i (by omega), hmconst i (by omega)] at h
      exact h
    have hs : (∑ i ∈ Finset.range 16, b.is_modified i) = 1 := by
      unfold sum_is_modified_constraint at hsumm
      linarith
    obtain ⟨m, hm16, hmM, hfm, hoff⟩ :=
      exactly_one_unit b.is_modified (b.modified_index 0) hz hs
    refine ⟨m, hm16, hfm, ?_, hoff⟩
    rw [hnode m (by omega), hmconst m (by omega), hmM]
  · intro hph
    have hz : ∀ i, i < 16 → b.is_drifted i * ((i : ℚ) - b.drifted_index 0) = 0 := by
      intro i hi
      have h := hdrifti i hi
      unfold is_drifted_index_constraint at h
      rw [hnode i (by omega), hdconst i (by omega)] at h
      exact h
    have hs : (∑ i ∈ Finset.range 16, b.is_drifted i) = 1 := by
      unfold sum_is_drifted_constraint at hsumd
      rw [hph] at hsumd
      linarith
    obtain ⟨d, hd16, hdM, hfd, hoff⟩ :=
      exactly_one_unit b.is_drifted (b.drifted_index 0) hz hs
    refine ⟨d, hd16, hfd, ?_, hoff⟩
    rw [hnode d (by omega), hdconst d (by omega), hdM]

/-- Claim C5, witness: the branch with modified child 3 and drifted child 5
satisfies all embedded constraints and indeed has exactly one modified
child. -/
theorem branch_exactly_one_modified_drifted_witness :
    branch_constraints_hold branch_rows_3_5 ∧
    ((∃ m, m < 16 ∧ branch_rows_3_5.is_modified m = 1 ∧
        branch_rows_3_5.node_index m = branch_rows_3_5.modified_index m ∧
        ∀ j, j < 16 → j ≠ m → branch_rows_3_5.is_modified j = 0) ∧
      (branch_rows_3_5.is_placeholder = 1 →
        ∃ d, d < 16 ∧ branch_rows_3_5.is_drifted d = 1 ∧
          branch_rows_3_5.node_index d = branch_rows_3_5.drifted_index d ∧
          ∀ j, j < 16 → j ≠ d → branch_rows_3_5.is_drifted j = 0)) := by
  have hch : branch_constraints_hold branch_rows_3_5 := by
    refine ⟨?_, ?_, ?_, ?_, ?_, ?_, ?_, ?_, ?_⟩
    · norm_num [node_index_first_constraint, branch_rows_3_5]
    · norm_num [node_index_last_constraint, branch_rows_3_5]
    · intro i h1 h2
      unfold node_index_incr_constraint
      simp only [branch_rows_3_5]
      interval_cases i <;> norm_num
    · intro i h1 h2
      unfold modified_index_const_constraint
      simp [branch_rows_3_5]
    · intro i h1 h2
      unfold drifted_index_const_constraint
      simp [branch_rows_3_5]
    · intro i hi
      unfold is_modified_index_constraint
      simp only [branch_rows_3_5]
      interval_cases i <;> norm_num
    · intro i hi
      unfold is_drifted_index_constraint
      simp only [branch_rows_3_5]
      interval_cases i <;> norm_num
    · norm_num [sum_is_modified_constraint, branch_rows_3_5, Finset.sum_range_succ]
    · norm_num [sum_is_drifted_constraint, branch_rows_3_5, Finset.sum_range_succ]
  exact ⟨hch, branch_exactly_one_modified_drifted branch_rows_3_5 hch⟩

/-- Claim C6: the gate of `branch.rs` lines 227-238 vanishes on all 33
checked positions (the raw RLP bytes `rlp2` and `bytes[0..32]` of the child;
`rlp1` holds the byte counter and is skipped by the source) exactly when the
row is at the modified position or the S and C bytes agree everywhere, so S
and C may differ at the modified position only and mutating any other child
violates a constraint. -/
theorem branch_sc_equal_outside_modified (p : BranchChildPair) :
    (∀ k, k < 33 → sc_eq_constraint p k = 0) ↔
      (p.node_index = p.modified_index ∨
        (p.s_rlp2 = p.c_rlp2 ∧ ∀ j, j < 32 → p.s_bytes j = p.c_bytes j)) := by
  constructor
  · intro h
    by_cases hnm : p.node_index = p.modified_index
    · exact Or.inl hnm
    · have hnm0 : p.node_index - p.modified_index ≠ 0 := sub_ne_zero.mpr hnm
      refine Or.inr ⟨?_, ?_⟩
      · have h0 := h 0 (by norm_num)
        unfold sc_eq_constraint sc_byte_diff at h0
        rcases mul_eq_zero.mp h0 with h0 | h0
        · exact absurd h0 hnm0
        · exact sub_eq_zero.mp h0
      · intro j hj
        have hk := h (j + 1) (by omega)
        unfold sc_eq_constraint sc_byte_diff at hk
        rcases mul_eq_zero.mp hk with hk | hk
        · exact absurd hk hnm0
        · exact sub_eq_zero.mp hk
  · intro h k hk
    unfold sc_eq_constraint
    rcases h with h | ⟨h1, h2⟩
    · rw [h]
      ring
    · have hdiff : sc_byte_diff p k = 0 := by
        cases k with
        | zero =>
          unfold sc_byte_diff
          rw [h1]
          ring
        | succ j =>
          show p.s_bytes j - p.c_bytes j = 0
          rw [h2 j (by omega)]
          ring
      rw [hdiff]
      ring

/-- Claim C6, witness: a child-row pair at the modified position satisfies
the gate even though its S and C bytes differ. -/
theorem branch_sc_equal_outside_modified_witness :
    branch_child_pair_mod.node_index = branch_child_pair_mod.modified_index ∧
    (∀ k, k < 33 → sc_eq_constraint branch_child_pair_mod k = 0) :=
  ⟨rfl, (branch_sc_equal_outside_modified branch_child_pair_mod).mpr (Or.inl rfl)⟩

/-- Claim C7: on a placeholder branch, if every child's `rlp2` presence byte
is 0 (nil child) or 160 (hashed child), the gate of `branch.rs`
lines 313-330 forces the 16 `rlp2` bytes to sum to `2 * 160 = 320`, hence
the parallel branch stored in those rows has exactly two non-nil children. -/
theorem placeholder_branch_two_children (b : PlaceholderBranchRows)
    (hph : b.is_placeholder = 1)
    (hbytes : ∀ i, i < 16 → b.rlp2 i = 0 ∨ b.rlp2 i = RLP_HASH_VALUE)
    (h : sum_rlp2_constraint b = 0) :
    (∑ i ∈ Finset.range 16, b.rlp2 i) = RLP_HASH_VALUE * 2 ∧
    (Finset.filter (fun i => b.rlp2 i = RLP_HASH_VALUE) (Finset.range 16)).card = 2 := by
  unfold sum_rlp2_constraint at h
  rw [hph] at h
  have hsum : (∑ i ∈ Finset.range 16, b.rlp2 i) = RLP_HASH_VALUE * 2 := by linarith
  refine ⟨hsum, ?_⟩
  have hsplit := Finset.sum_filter_add_sum_filter_not (Finset.range 16)
    (fun i => b.rlp2 i = RLP_HASH_VALUE) b.rlp2
  have hnot : (∑ i ∈ Finset.filter (fun i => ¬ b.rlp2 i = RLP_HASH_VALUE)
      (Finset.range 16), b.rlp2 i) = 0 := by
    apply Finset.sum_eq_zero
    intro i hi
    have hmem := Finset.mem_filter.mp hi
    rcases hbytes i (Finset.mem_range.mp hmem.1) with h0 | h0
    · exact h0
    · exact absurd h0 hmem.2
  have hyes : (∑ i ∈ Finset.filter (fun i => b.rlp2 i = RLP_HASH_VALUE)
      (Finset.range 16), b.rlp2 i) =
      ((Finset.filter (fun i => b.rlp2 i = RLP_HASH_VALUE)
        (Finset.range 16)).card : ℚ) * RLP_HASH_VALUE := by
    rw [Finset.sum_congr rfl (fun i hi => (Finset.mem_filter.mp hi).2)]
    rw [Finset.sum_const, nsmul_eq_mul]
  rw [hyes, hnot] at hsplit
  have hcard : ((Finset.filter (fun i => b.rlp2 i = RLP_HASH_VALUE)
      (Finset.range 16)).card : ℚ) * RLP_HASH_VALUE = 2 * RLP_HASH_VALUE := by
    linarith
  have h160 : RLP_HASH_VALUE ≠ (0 : ℚ) := by norm_num [RLP_HASH_VALUE]
  have : ((Finset.filter (fun i => b.rlp2 i = RLP_HASH_VALUE)
      (Finset.range 16)).card : ℚ) = 2 := mul_right_cancel₀ h160 hcard
  exact_mod_cast this

/-- Claim C7, witness: the placeholder branch with hashed children at 2 and 7
satisfies the sum constraint and has exactly two non-nil children. -/
theorem placeholder_branch_two_children_witness :
    placeholder_rows_2_7.is_placeholder = 1 ∧
    sum_rlp2_constraint placeholder_rows_2_7 = 0 ∧
    (∑ i ∈ Finset.range 16, placeholder_rows_2_7.rlp2 i) = RLP_HASH_VALUE * 2 ∧
    (Finset.filter (fun i => placeholder_rows_2_7.rlp2 i = RLP_HASH_VALUE)
      (Finset.range 16)).card = 2 := by
  have hc : sum_rlp2_constraint placeholder_rows_2_7 = 0 := by
    norm_num [sum_rlp2_constraint, placeholder_rows_2_7, RLP_HASH_VALUE,
      Finset.sum_range_succ]
  have hb : ∀ i, i < 16 →
      placeholder_rows_2_7.rlp2 i = 0 ∨ placeholder_rows_2_7.rlp2 i = RLP_HASH_VALUE := by
    intro i hi
    unfold placeholder_rows_2_7 RLP_HASH_VALUE
    by_cases h : i = 2 ∨ i = 7 <;> simp [h]
  have := placeholder_branch_two_children placeholder_rows_2_7 rfl hb hc
  exact ⟨rfl, hc, this.1, this.2⟩

/-- Claim C8: when the byte-counter constraints of `branch.rs` lines 169-192
hold on one side of a branch, the counter in `rlp1` at child `i` equals the
branch's full RLP length minus the RLP lengths of children `0..i`, and the
last-child value 1 pins the 16 child lengths to the branch length minus the
1 byte reserved for the value node. -/
theorem branch_byte_counter (b : BranchSideRows)
    (hupd : ∀ i, i < 16 → num_bytes_left_constraint b i = 0)
    (hlast : last_child_rlp1_constraint b = 0) :
    (∀ i, i < 16 →
      b.rlp1 i = b.branch_len - ∑ j ∈ Finset.range (i + 1), child_num_bytes b j) ∧
    (∑ j ∈ Finset.range 16, child_num_bytes b j) = b.branch_len - 1 := by
  have hclosed : ∀ i, i < 16 →
      b.rlp1 i = b.branch_len - ∑ j ∈ Finset.range (i + 1), child_num_bytes b j := by
    intro i
    induction i with
    | zero =>
      intro _
      have h := hupd 0 (by norm_num)
      unfold num_bytes_left_constraint at h
      norm_num at h
      rw [Finset.sum_range_one]
      linarith
    | succ k ih =>
      intro hk
      have h := hupd (k + 1) hk
      unfold num_bytes_left_constraint at h
      norm_num at h
      rw [Finset.sum_range_succ]
      have hik := ih (by omega)
      rw [hik] at h
      linarith
  refine ⟨hclosed, ?_⟩
  have h15 := hclosed 15 (by norm_num)
  unfold last_child_rlp1_constraint at hlast
  rw [h15] at hlast
  norm_num at hlast
  linarith

/-- Claim C8, witness: a branch side of 16 nil children with RLP length 17
satisfies the counter constraints, the closed form, and the total-length
relation. -/
theorem branch_byte_counter_witness :
    (∀ i, i < 16 → num_bytes_left_constraint branch_side_nil i = 0) ∧
    last_child_rlp1_constraint branch_side_nil = 0 ∧
    ((∀ i, i < 16 → branch_side_nil.rlp1 i =
        branch_side_nil.branch_len -
          ∑ j ∈ Finset.range (i + 1), child_num_bytes branch_side_nil j) ∧
      (∑ j ∈ Finset.range 16, child_num_bytes branch_side_nil j) =
        branch_side_nil.branch_len - 1) := by
  have hupd : ∀ i, i < 16 → num_bytes_left_constraint branch_side_nil i = 0 := by
    intro i hi
    unfold num_bytes_left_constraint child_num_bytes branch_child_len
    interval_cases i <;> norm_num [branch_side_nil]
  have hlast : last_child_rlp1_constraint branch_side_nil = 0 := by
    norm_num [last_child_rlp1_constraint, branch_side_nil]
  exact ⟨hupd, hlast, branch_byte_counter branch_side_nil hupd hlast⟩

end Spec2Proof
